import Mathlib

/-!
Verification development for the native-ad asset negotiation core
(src/native.js): a shallow embedding of its data model and functions,
together with theorems settling the specification claims.

JavaScript values are modelled by the inductive type JVal. Numbers are
modelled as rationals (the model has no NaN and no infinities; double
rounding and the exponent notation JS uses for very large magnitudes are
idealized). Objects are association lists of fields; object literals in
the source never carry duplicate keys, and an association list with a
duplicate key canonically denotes the object in which the first binding
wins (jget reads the first binding, key iteration deduplicates). Property
access is total here, returning the undefined value for a missing key; reads that throw
in JS (a base of null or undefined) are treated separately by the
exception model near the end of the definitions.
-/

inductive JVal where
  | undefv : JVal
  | null : JVal
  | bool : Bool → JVal
  | num : ℚ → JVal
  | str : String → JVal
  | arr : List JVal → JVal
  | obj : List (String × JVal) → JVal

/-- JS truthiness: undefined, null, false, 0 and the empty string are falsy;
every array and object is truthy. -/
def truthy : JVal → Bool
  | .undefv => false
  | .null => false
  | .bool b => b
  | .num q => !(q == 0)
  | .str s => !(s == "")
  | .arr _ => true
  | .obj _ => true

/-- Array.isArray. -/
def isArr : JVal → Bool
  | .arr _ => true
  | _ => false

/-- Modelled from the spec: utils.js is outside the sources; its isNumber is
a typeof check, true exactly on numbers. -/
def isNum : JVal → Bool
  | .num _ => true
  | _ => false

/-- Modelled from the spec: utils.js is outside the sources; its
isPlainObject is true exactly on plain objects (not arrays, not null). -/
def isPlainObj : JVal → Bool
  | .obj _ => true
  | _ => false

/-- First-binding lookup in an association list. -/
def alookup {α : Type} : List (String × α) → String → Option α
  | [], _ => none
  | p :: ps, k => if p.1 = k then some p.2 else alookup ps k

/-- Elements of a non-empty list of decimal digits read as a natural number. -/
def digitsToNat : List Char → Nat → Nat
  | [], acc => acc
  | c :: cs, acc => digitsToNat cs (acc * 10 + (c.toNat - 48))

/-- The canonical array-index strings: a key made of digits whose decimal
reading prints back to the key itself (so no leading zeros, except 0). -/
def strIndex : String → Option Nat
  | k =>
    if k.data ≠ [] ∧ k.data.all (fun c => c.isDigit) then
      if toString (digitsToNat k.data 0) = k then some (digitsToNat k.data 0) else none
    else none

/-- Property read, total: a missing key and every read off a non-object
yield undefined. Arrays and strings answer their canonical index keys
(their other built-in properties are not read by the source). Reads that
throw in JS (base null or undefined) are modelled by jgetE below. -/
def jget (v : JVal) (k : String) : JVal :=
  match v with
  | .obj fs => (alookup fs k).getD .undefv
  | .arr xs =>
    match strIndex k with
    | some i => (xs.get? i).getD .undefv
    | none => .undefv
  | .str s =>
    match strIndex k with
    | some i => ((s.data.get? i).map (fun c => JVal.str (String.mk [c]))).getD .undefv
    | none => .undefv
  | _ => .undefv

/-- hasOwnProperty for the shapes the source applies it to: an own key of a
plain object. -/
def hasProp (v : JVal) (k : String) : Bool :=
  match v with
  | .obj fs => (fs.map Prod.fst).contains k
  | _ => false

/-- Keep the first occurrence of each key, preserving order. -/
def dedupFirst : List String → List String
  | [] => []
  | k :: ks => k :: (dedupFirst ks).filter (fun x => x != k)

/-- The raw Object.keys sequence of a value before deduplication. -/
def rawKeys : JVal → List String
  | .obj fs => fs.map Prod.fst
  | .arr xs => (List.range xs.length).map (fun i => toString i)
  | .str s => (List.range s.length).map (fun i => toString i)
  | _ => []

/-- Object.keys: own enumerable keys in insertion order. -/
def iterKeys (v : JVal) : List String := dedupFirst (rawKeys v)

/-- Object.keys of an already materialized field list. -/
def iterKeysOfFields (fs : List (String × JVal)) : List String :=
  dedupFirst (fs.map Prod.fst)

/-- SameValueZero, as observable on values built from literals: primitives
compare by value; two object or array literals are distinct references and
never equal (the model has no aliasing, no NaN and a single zero, which is
where SameValueZero and strict equality would differ). -/
def sameValueZero : JVal → JVal → Bool
  | .undefv, .undefv => true
  | .null, .null => true
  | .bool a, .bool b => a == b
  | .num a, .num b => a == b
  | .str a, .str b => a == b
  | _, _ => false

/-- The element list of new Set(l): first occurrences under SameValueZero. -/
def jsSetList : List JVal → List JVal
  | [] => []
  | v :: vs => v :: (jsSetList vs).filter (fun w => !(sameValueZero w v))

/-- new Set(l).size. -/
def jsSetSize (l : List JVal) : Nat := (jsSetList l).length

/-- The check id strict-equals parseInt(id, 10): parseInt always returns a
number, so any non-number id differs; a finite number round-trips through
parseInt of its decimal string exactly when it is an integer. -/
def intCoercionOk : JVal → Bool
  | .num q => q.den == 1
  | _ => false

/-- Split a list of characters on the dot character. -/
def splitDotsChars : List Char → List (List Char)
  | [] => [[]]
  | c :: cs =>
    if c = '.' then [] :: splitDotsChars cs
    else
      match splitDotsChars cs with
      | h :: t => (c :: h) :: t
      | [] => [[c]]

/-- Split a string on dots, as String(path).split of the dot does. -/
def splitDots (s : String) : List String :=
  (splitDotsChars s.data).map (fun cs => String.mk cs)

/-- Walk a dot path; a falsy intermediate value yields undefined. -/
def deepAccessPath : JVal → List String → JVal
  | v, [] => v
  | v, k :: ks => deepAccessPath (if truthy v then jget v k else .undefv) ks

/-- Modelled from the spec: utils.js is outside the sources; its deepAccess
splits the path on dots and walks it, yielding undefined as soon as a step
is falsy or lacks the key (it never throws). -/
def deepAccess (v : JVal) (path : String) : JVal :=
  deepAccessPath v (splitDots path)

/-- String(n) for a finite JS number. Integer values print in decimal as in
JS for the magnitudes that occur here (JS switches to exponent notation
only at 1e21). A non-integer rational stands in for a double, whose
shortest-round-trip printing has no exact counterpart on ℚ; it is rendered
num/den, and nothing below depends on that case. -/
def numToString (q : ℚ) : String :=
  if q.den = 1 then toString q.num else toString q.num ++ "/" ++ toString q.den

/-- Join strings with commas, as Array.prototype.join with no argument. -/
def commaJoin : List String → String
  | [] => ""
  | [s] => s
  | s :: rest => s ++ "," ++ commaJoin rest

mutual

/-- String(v): an array renders as the comma-join of its parts, an object
as the object tag. -/
def jToString : JVal → String
  | .undefv => "undefined"
  | .null => "null"
  | .bool b => cond b "true" "false"
  | .num q => numToString q
  | .str s => s
  | .arr xs => commaJoin (jArrParts xs)
  | .obj _ => "[object Object]"
termination_by structural v => v

/-- The parts of a joined array: null and undefined elements print as the
empty string, as Array.prototype.join prescribes. -/
def jArrParts : List JVal → List String
  | [] => []
  | .undefv :: rest => "" :: jArrParts rest
  | .null :: rest => "" :: jArrParts rest
  | v :: rest => jToString v :: jArrParts rest
termination_by structural l => l

end

/-- Does the character list t lead the character list s? -/
def charsLead : List Char → List Char → Bool
  | [], _ => true
  | _ :: _, [] => false
  | c :: cs, d :: ds => c == d && charsLead cs ds

/-- Does t occur contiguously inside s? -/
def charsHasSub : List Char → List Char → Bool
  | [], t => charsLead t []
  | c :: s, t => charsLead t (c :: s) || charsHasSub s t

/-- Substring containment on strings. -/
def strIncl (s t : String) : Bool := charsHasSub s.data t.data

/-- Modelled from the spec: the source imports the pure string/includes
polyfill of core-js and calls it with the receiver as first argument; per
the ECMAScript String.prototype.includes it coerces both the receiver and
the search value with String and tests substring containment. The receiver
at every call site of the source is an array, which String renders as its
comma-join. -/
def includesJS (receiver search : JVal) : Bool :=
  strIncl (jToString receiver) (jToString search)

/-- JS disjunction value: the first operand if truthy, else the second. -/
def jsOr (a b : JVal) : JVal := if truthy a then a else b

/-- The element list of an array value, for the points where the source
calls filter or map on a value it expects to be an array (a non-array
there throws in JS; the exception model covers that, the total model reads
an empty list). -/
def jarr : JVal → List JVal
  | .arr xs => xs
  | _ => []

/-- getAssetValue (src/native.js): a value that is an object with a truthy
url property yields that url, anything else passes through. In JS the
typeof test also lets null through to a throwing url read; the total model
passes null through, and getAssetValueE models the throw. -/
def getAssetValue (value : JVal) : JVal :=
  match value with
  | .obj _ => if truthy (jget value "url") then jget value "url" else value
  | _ => value

/-- JS object assignment o[k] = v on a field list: an existing key keeps
its position and takes the new value, a new key is appended. -/
def objSet (fs : List (String × JVal)) (k : String) (v : JVal) : List (String × JVal) :=
  if (fs.map Prod.fst).contains k then
    fs.map (fun p => if p.1 = k then (k, v) else p)
  else fs ++ [(k, v)]

/-- Canonicalize a field list to the first-binding-wins reading. -/
def normFields : List (String × JVal) → List (String × JVal)
  | [] => []
  | p :: ps => p :: (normFields ps).filter (fun q => q.1 != p.1)

/-- Spread-merge two field lists: keys of the first keep their positions
but a key also bound in the second takes the second's value; keys only in
the second follow in order. -/
def amerge {α : Type} (fa fb : List (String × α)) : List (String × α) :=
  fa.map (fun p =>
    match alookup fb p.1 with
    | some v => (p.1, v)
    | none => p) ++
  fb.filter (fun q => (alookup fa q.1).isNone)

/-- The field list an object spread reads from a value: objects give their
fields, arrays and strings their indexed elements, other primitives
nothing. -/
def spreadFields : JVal → List (String × JVal)
  | .obj fs => fs
  | .arr xs => ((List.range xs.length).zip xs).map (fun p => (toString p.1, p.2))
  | .str s => ((List.range s.length).zip s.data).map (fun p => (toString p.1, JVal.str (String.mk [p.2])))
  | _ => []

/-- The object built by spreading a then b. -/
def spreadTwo (a b : JVal) : List (String × JVal) :=
  amerge (normFields (spreadFields a)) (normFields (spreadFields b))

/-- flatBidNativeKeys (src/native.js): spread of bid.native then
bid.native.ext, with the ext key deleted. -/
def flatFields (bid : JVal) : List (String × JVal) :=
  (spreadTwo (jget bid "native") (jget (jget bid "native") "ext")).filter
    (fun p => p.1 != "ext")

/-- Modelled from the spec: the fixed well-known table lives in
constants.json, which is not among the sources. The spec names the legacy
asset names and attests the targeting keys hb_native_title and
hb_native_linkurl; the remaining entries follow the hb_native_ prefix
convention the spec describes. No theorem below depends on the exact
entries of this table. -/
def NATIVE_KEYS : List (String × String) :=
  [("title", "hb_native_title"),
   ("body", "hb_native_body"),
   ("sponsoredBy", "hb_native_sponsoredBy"),
   ("image", "hb_native_image"),
   ("icon", "hb_native_icon"),
   ("clickUrl", "hb_native_linkurl")]

/-- The IMAGE preset (src/native.js): the fixed five-asset OpenRTB schema
plus the equivalent legacy flags. -/
def IMAGE : JVal :=
  .obj
    [("ortb2", .obj
      [("ver", .str "1.2"),
       ("assets", .arr
         [.obj [("required", .num 1), ("id", .num 1),
                ("img", .obj [("type", .num 3), ("wmin", .num 100), ("hmin", .num 100)])],
          .obj [("required", .num 1), ("id", .num 2),
                ("title", .obj [("len", .num 140)])],
          .obj [("required", .num 1), ("id", .num 3),
                ("data", .obj [("type", .num 1)])],
          .obj [("required", .num 0), ("id", .num 4),
                ("data", .obj [("type", .num 2)])],
          .obj [("required", .num 0), ("id", .num 5),
                ("img", .obj [("type", .num 1), ("wmin", .num 20), ("hmin", .num 20)])]])]),
     ("image", .obj [("required", .bool true)]),
     ("title", .obj [("required", .bool true)]),
     ("sponsoredBy", .obj [("required", .bool true)]),
     ("clickUrl", .obj [("required", .bool true)]),
     ("body", .obj [("required", .bool false)]),
     ("icon", .obj [("required", .bool false)])]

/-- SUPPORTED_TYPES (src/native.js). -/
def SUPPORTED_TYPES : JVal := .obj [("image", IMAGE)]

/-- isOpenRTBAssetValid (src/native.js). -/
def isOpenRTBAssetValid (asset : JVal) : Bool :=
  if !(isPlainObj asset) then false
  else if truthy (jget asset "img") then
    (isNum (jget (jget asset "img") "w") || isNum (jget (jget asset "img") "wmin")) &&
    (isNum (jget (jget asset "img") "h") || isNum (jget (jget asset "img") "hmin"))
  else if truthy (jget asset "title") then
    isNum (jget (jget asset "title") "len")
  else if truthy (jget asset "data") then
    isNum (jget (jget asset "data") "type")
  else if truthy (jget asset "video") then
    isArr (jget (jget asset "video") "mimes") &&
    isArr (jget (jget asset "video") "protocols") &&
    isNum (jget (jget asset "video") "minduration") &&
    isNum (jget (jget asset "video") "maxduration")
  else true

/-- isOpenRTBBidRequestValid (src/native.js): assets must be a non-empty
array; ids must strict-equal their parseInt and be distinct as counted by
new Set; eventtrackers, when the property exists, must be an array; and
every asset must pass isOpenRTBAssetValid. -/
def isOpenRTBBidRequestValid (ortb2 : JVal) : Bool :=
  match jget ortb2 "assets" with
  | .arr assets =>
    if assets.length = 0 then false
    else
      let ids := assets.map (fun asset => jget asset "id")
      if !(assets.length == jsSetSize ids) || ids.any (fun id => !(intCoercionOk id)) then false
      else if hasProp ortb2 "eventtrackers" && !(isArr (jget ortb2 "eventtrackers")) then false
      else assets.all (fun asset => isOpenRTBAssetValid asset)
  | _ => false

/-- The per-type shape rule in the words of the claim: an img asset needs a
numeric w or wmin and a numeric h or hmin, a title asset a numeric len, a
data asset a numeric type, a video asset array mimes and protocols and
numeric minduration and maxduration; an asset matching none of the types
is accepted. Stated from the claim for comparison with the source-derived
isOpenRTBAssetValid. -/
def specAssetShape (asset : JVal) : Bool :=
  if truthy (jget asset "img") then
    (isNum (jget (jget asset "img") "w") || isNum (jget (jget asset "img") "wmin")) &&
    (isNum (jget (jget asset "img") "h") || isNum (jget (jget asset "img") "hmin"))
  else if truthy (jget asset "title") then
    isNum (jget (jget asset "title") "len")
  else if truthy (jget asset "data") then
    isNum (jget (jget asset "data") "type")
  else if truthy (jget asset "video") then
    isArr (jget (jget asset "video") "mimes") &&
    isArr (jget (jget asset "video") "protocols") &&
    isNum (jget (jget asset "video") "minduration") &&
    isNum (jget (jget asset "video") "maxduration")
  else true

/-- typeIsSupported (src/native.js): the type must be truthy and pass the
includes polyfill against Object.keys(SUPPORTED_TYPES) — with the string
polyfill the key list coerces to the string image and the test is
substring containment. -/
def typeIsSupported (ty : JVal) : Bool :=
  truthy ty && includesJS (.arr ((iterKeys SUPPORTED_TYPES).map JVal.str)) ty

/-- The preset substitution step of processNativeAdUnitParams
(src/native.js): a truthy params with a truthy supported type is replaced
by SUPPORTED_TYPES[params.type] (computed member access coerces the key
with String). -/
def substitutePreset (params : JVal) : JVal :=
  if truthy params && truthy (jget params "type") && typeIsSupported (jget params "type") then
    jget SUPPORTED_TYPES (jToString (jget params "type"))
  else params

/-- processNativeAdUnitParams (src/native.js): substitute a preset, then
reject (returning undefined) a truthy result with a truthy ortb2 field
failing isOpenRTBBidRequestValid. -/
def processNativeAdUnitParams (params : JVal) : JVal :=
  let params1 := substitutePreset params
  if truthy params1 && truthy (jget params1 "ortb2") &&
      !(isOpenRTBBidRequestValid (jget params1 "ortb2")) then
    .undefv
  else params1

/-- isNativeOpenRTBBidValid (src/native.js): a non-empty link.url, and
every required asset id of the request passed through the includes
polyfill against the response id array — with the string polyfill the id
array coerces to its comma-join and the test is substring containment.
The strict equality against 1 is sameValueZero, which agrees with it on
every value of this model. -/
def isNativeOpenRTBBidValid (bidORTB bidRequestORTB : JVal) : Bool :=
  if !(truthy (deepAccess bidORTB "link.url")) then false
  else
    let requiredAssetIds :=
      ((jarr (jget bidRequestORTB "assets")).filter
        (fun asset => sameValueZero (jget asset "required") (.num 1))).map
        (fun a => jget a "id")
    let returnedAssetIds := (jarr (jget bidORTB "assets")).map (fun asset => jget asset "id")
    requiredAssetIds.all (fun assetId => includesJS (.arr returnedAssetIds) assetId)

/-- nativeBidIsValid (src/native.js). The ad-slot index is an explicit
function from bids to the ad unit (undefined when the lookup fails). -/
def nativeBidIsValid (bid : JVal) (index : JVal → JVal) : Bool :=
  let bidRequest := index bid
  if !(truthy bidRequest) then false
  else if truthy (deepAccess bid "native.ortb2") && truthy (deepAccess bidRequest "nativeParams.ortb2") then
    isNativeOpenRTBBidValid (jget (jget bid "native") "ortb2")
      (jget (jget bidRequest "nativeParams") "ortb2")
  else if !(truthy (deepAccess bid "native.clickUrl")) then false
  else
    let requestedAssets := jget bidRequest "nativeParams"
    if !(truthy requestedAssets) then true
    else
      let requiredAssets :=
        (iterKeys requestedAssets).filter
          (fun key => truthy (jget (jget requestedAssets key) "required"))
      let returnedAssets :=
        (iterKeys (jget bid "native")).filter
          (fun key => truthy (jget (jget bid "native") key))
      requiredAssets.all (fun asset =>
        includesJS (.arr (returnedAssets.map JVal.str)) (.str asset))

/-- The extension names getNativeKeys (src/native.js) reads: the keys of a
truthy nativeParams.ext. -/
def extNamesOf (adUnit : JVal) : List String :=
  if truthy (deepAccess adUnit "nativeParams.ext") then
    iterKeys (jget (jget adUnit "nativeParams") "ext")
  else []

/-- getNativeKeys (src/native.js): the fixed table spread first, then an
entry hb_native_ plus name for every extension name. -/
def getNativeKeys (adUnit : JVal) : List (String × String) :=
  amerge NATIVE_KEYS ((extNamesOf adUnit).map (fun k => (k, "hb_native_" ++ k)))

/-- The global sendTargetingKeys default of getNativeTargeting
(src/native.js): true unless nativeParams.sendTargetingKeys is the boolean
false (a strict comparison). -/
def globalSendTK (adUnit : JVal) : Bool :=
  match deepAccess adUnit "nativeParams.sendTargetingKeys" with
  | .bool false => false
  | _ => true

/-- The two-stage per-asset flag lookup of getNativeTargeting
(src/native.js): nativeParams.(asset).(field) if it is a boolean, else
nativeParams.ext.(asset).(field); both through deepAccess, so a dotted
asset name splits. -/
def assetFlag (adUnit : JVal) (asset field : String) : JVal :=
  match deepAccess adUnit ("nativeParams." ++ asset ++ "." ++ field) with
  | .bool b => .bool b
  | _ => deepAccess adUnit ("nativeParams.ext." ++ asset ++ "." ++ field)

/-- The value getNativeTargeting (src/native.js) resolves for an asset:
getAssetValue of bid.native[asset], or, if falsy, getAssetValue of
deepAccess(bid, native.ext.(asset)). -/
def resolvedAssetValue (bid : JVal) (asset : String) : JVal :=
  jsOr (getAssetValue (jget (jget bid "native") asset))
       (getAssetValue (deepAccess bid ("native.ext." ++ asset)))

/-- The write bid.native[k] = v: both bid and bid.native must be objects
for the write to land on this value model (JS throws on a null or
undefined native and silently accepts named properties on arrays, which
this model does not carry; no claim depends on those shapes). -/
def setNativeField (bid : JVal) (k : String) (v : JVal) : JVal :=
  match bid, jget bid "native" with
  | .obj bfs, .obj nfs => .obj (objSet bfs "native" (.obj (objSet nfs k v)))
  | _, _ => bid

/-- The mutation prologue of getNativeTargeting (src/native.js): a declared
nativeParams.rendererUrl is value-resolved and written onto bid.native,
else a declared nativeParams.adTemplate is. -/
def mutateStep (bid adUnit : JVal) : JVal :=
  if truthy (deepAccess adUnit "nativeParams.rendererUrl") then
    setNativeField bid "rendererUrl"
      (getAssetValue (jget (jget adUnit "nativeParams") "rendererUrl"))
  else if truthy (deepAccess adUnit "nativeParams.adTemplate") then
    setNativeField bid "adTemplate"
      (getAssetValue (jget (jget adUnit "nativeParams") "adTemplate"))
  else bid

/-- The body of the targeting loop of getNativeTargeting (src/native.js)
for one asset name: none when the iteration skips or suppresses the asset,
some (key, value) when it assigns keyValues[key] = value. -/
def assetEmission (adUnit bid : JVal) (asset : String) : Option (String × JVal) :=
  match alookup (getNativeKeys adUnit) asset with
  | none => none
  | some key =>
    if asset = "adTemplate" ∨ key = "" ∨ truthy (resolvedAssetValue bid asset) = false then none
    else
      let value :=
        if truthy (assetFlag adUnit asset "sendId") then
          JVal.str (key ++ ":" ++ jToString (jget bid "adId"))
        else resolvedAssetValue bid asset
      match assetFlag adUnit asset "sendTargetingKeys" with
      | .bool b => if b then some (key, value) else none
      | _ => if globalSendTK adUnit then some (key, value) else none

/-- One forEach iteration of the targeting loop (src/native.js) acting on
the accumulated keyValues object: an emitted pair is assigned, a skipped
or suppressed asset leaves it unchanged. -/
def emitStep (adUnit bid : JVal) (acc : List (String × JVal)) (asset : String) :
    List (String × JVal) :=
  match assetEmission adUnit bid asset with
  | some kv => objSet acc kv.1 kv.2
  | none => acc

/-- getNativeTargeting (src/native.js), with its side effect made explicit:
the first component is the bid after the mutation prologue, the second the
keyValues map built by folding the loop over the iteration keys. -/
def getNativeTargetingFull (bid : JVal) (index : JVal → JVal) : JVal × List (String × JVal) :=
  let adUnit := index bid
  let bid1 := mutateStep bid adUnit
  (bid1, (iterKeysOfFields (flatFields bid1)).foldl (emitStep adUnit bid1) [])

/-- The keyValues map getNativeTargeting returns. -/
def getNativeTargeting (bid : JVal) (index : JVal → JVal) : List (String × JVal) :=
  (getNativeTargetingFull bid index).2

/-- Property read in the exception model: reading off null or undefined
throws. -/
def jgetE (v : JVal) (k : String) : Except Unit JVal :=
  match v with
  | .undefv => .error ()
  | .null => .error ()
  | _ => .ok (jget v k)

/-- getAssetValue in the exception model: typeof null is the string object,
so a null value reaches the url read and throws. -/
def getAssetValueE (value : JVal) : Except Unit JVal :=
  match value with
  | .null => .error ()
  | .obj _ => .ok (if truthy (jget value "url") then jget value "url" else value)
  | _ => .ok value

/-- isOpenRTBBidRequestValid in the exception model: the assets read throws
on a null or undefined ortb2, and the id map throws at the first null or
undefined asset. The later reads cannot throw: eventtrackers is read off a
value that already answered a property read, and isOpenRTBAssetValid
checks isPlainObject before reading and only dereferences truthy fields. -/
def isOpenRTBBidRequestValidE (ortb2 : JVal) : Except Unit Bool :=
  match jgetE ortb2 "assets" with
  | .error e => .error e
  | .ok assets =>
    match assets with
    | .arr xs =>
      if xs.length = 0 then .ok false
      else
        match xs.mapM (fun asset => jgetE asset "id") with
        | .error e => .error e
        | .ok ids =>
          if !(xs.length == jsSetSize ids) || ids.any (fun id => !(intCoercionOk id)) then .ok false
          else if hasProp ortb2 "eventtrackers" && !(isArr (jget ortb2 "eventtrackers")) then .ok false
          else .ok (xs.all (fun asset => isOpenRTBAssetValid asset))
    | _ => .ok false

-- THEOREMS

theorem jsSetList_subset (l : List JVal) : ∀ w ∈ jsSetList l, w ∈ l := by
  induction l with
  | nil => intro w hw; simp [jsSetList] at hw
  | cons v vs ih =>
    intro w hw
    simp only [jsSetList, List.mem_cons] at hw
    rcases hw with h | h
    · exact List.mem_cons.mpr (Or.inl h)
    · exact List.mem_cons.mpr (Or.inr (ih w (List.mem_of_mem_filter h)))

theorem svz_num_self (q : ℚ) : sameValueZero (.num q) (.num q) = true := by
  simp [sameValueZero]

theorem svz_num_eq (a b : ℚ) (h : sameValueZero (.num a) (.num b) = true) : a = b := by
  simpa [sameValueZero] using h

theorem mem_jsSetList (l : List JVal) (hn : ∀ v ∈ l, ∃ q : ℚ, v = JVal.num q) :
    ∀ w ∈ l, w ∈ jsSetList l := by
  induction l with
  | nil => intro w hw; exact absurd hw (List.not_mem_nil w)
  | cons v vs ih =>
    intro w hw
    rcases List.mem_cons.mp hw with h | h
    · simp [jsSetList, h]
    · have hw' : w ∈ jsSetList vs := ih (fun x hx => hn x (List.mem_cons.mpr (Or.inr hx))) w h
      by_cases hs : sameValueZero w v = true
      · obtain ⟨qw, rfl⟩ := hn w (List.mem_cons.mpr (Or.inr h))
        obtain ⟨qv, rfl⟩ := hn v (List.mem_cons_self v vs)
        have : qw = qv := svz_num_eq qw qv hs
        simp [jsSetList, this]
      · simp only [jsSetList, List.mem_cons]
        right
        exact List.mem_filter.mpr ⟨hw', by simp [Bool.not_eq_true] at hs ⊢; exact hs⟩

theorem jsSetList_length_le (l : List JVal) : (jsSetList l).length ≤ l.length := by
  induction l with
  | nil => simp [jsSetList]
  | cons v vs ih =>
    simp only [jsSetList, List.length_cons]
    have := List.length_filter_le (fun w => !(sameValueZero w v)) (jsSetList vs)
    omega

theorem jsSetSize_eq_iff (l : List JVal) (hn : ∀ v ∈ l, ∃ q : ℚ, v = JVal.num q) :
    jsSetSize l = l.length ↔ l.Nodup := by
  induction l with
  | nil => simp [jsSetSize, jsSetList]
  | cons v vs ih =>
    have hn' : ∀ v ∈ vs, ∃ q : ℚ, v = JVal.num q :=
      fun x hx => hn x (List.mem_cons.mpr (Or.inr hx))
    have hfle := List.length_filter_le (fun w => !(sameValueZero w v)) (jsSetList vs)
    have hsle := jsSetList_length_le vs
    constructor
    · intro h
      simp only [jsSetSize, jsSetList, List.length_cons] at h
      have hlen : ((jsSetList vs).filter (fun w => !(sameValueZero w v))).length = vs.length := by
        omega
      have hflen : ((jsSetList vs).filter (fun w => !(sameValueZero w v))).length =
          (jsSetList vs).length := by omega
      have hfeq := List.Sublist.eq_of_length
        (List.filter_sublist (l := jsSetList vs)) hflen
      have hall := List.filter_eq_self.mp hfeq
      have hvs : jsSetSize vs = vs.length := by
        simp only [jsSetSize]; omega
      refine List.nodup_cons.mpr ⟨?_, (ih hn').mp hvs⟩
      intro hmem
      have hv' : v ∈ jsSetList vs := mem_jsSetList vs hn' v hmem
      have := hall v hv'
      obtain ⟨q, rfl⟩ := hn v (List.mem_cons_self v vs)
      simp [svz_num_self] at this
    · intro h
      obtain ⟨hvn, hnd⟩ := List.nodup_cons.mp h
      have hvs : jsSetSize vs = vs.length := (ih hn').mpr hnd
      have hfeq : (jsSetList vs).filter (fun w => !(sameValueZero w v)) = jsSetList vs := by
        refine List.filter_eq_self.mpr ?_
        intro w hw
        have hwvs : w ∈ vs := jsSetList_subset vs w hw
        obtain ⟨qw, rfl⟩ := hn' w hwvs
        obtain ⟨qv, rfl⟩ := hn v (List.mem_cons_self v vs)
        by_cases hqw : qw = qv
        · exact absurd (hqw ▸ hwvs) hvn
        · simp [sameValueZero, hqw]
      simp only [jsSetSize, jsSetList, List.length_cons, hfeq]
      simp only [jsSetSize] at hvs
      omega

theorem strIndex_id : strIndex "id" = none := by rfl

theorem strIndex_ortb2 : strIndex "ortb2" = none := by rfl

theorem jget_not_obj (v : JVal) (k : String) (hobj : isPlainObj v = false)
    (hidx : strIndex k = none) : jget v k = .undefv := by
  cases v with
  | obj fs => simp [isPlainObj] at hobj
  | arr xs => simp [jget, hidx]
  | str s => simp [jget, hidx]
  | undefv => rfl
  | null => rfl
  | bool b => rfl
  | num q => rfl

theorem asset_obj_of_id (a : JVal) (h : intCoercionOk (jget a "id") = true) :
    isPlainObj a = true := by
  by_cases hobj : isPlainObj a = true
  · exact hobj
  · rw [jget_not_obj a "id" (by simpa using hobj) strIndex_id] at h
    simp [intCoercionOk] at h

theorem num_of_intCoercionOk (v : JVal) (h : intCoercionOk v = true) :
    ∃ q : ℚ, v = JVal.num q := by
  cases v with
  | num q => exact ⟨q, rfl⟩
  | undefv => simp [intCoercionOk] at h
  | null => simp [intCoercionOk] at h
  | bool b => simp [intCoercionOk] at h
  | str s => simp [intCoercionOk] at h
  | arr xs => simp [intCoercionOk] at h
  | obj fs => simp [intCoercionOk] at h

theorem assetValid_eq_spec (a : JVal) (h : isPlainObj a = true) :
    isOpenRTBAssetValid a = specAssetShape a := by
  simp [isOpenRTBAssetValid, specAssetShape, h]

theorem ortb2_valid_iff (ortb2 : JVal) :
    isOpenRTBBidRequestValid ortb2 = true ↔
      ∃ assets : List JVal,
        jget ortb2 "assets" = .arr assets ∧ assets ≠ [] ∧
        (∀ a ∈ assets, intCoercionOk (jget a "id") = true) ∧
        (assets.map (fun a => jget a "id")).Nodup ∧
        (hasProp ortb2 "eventtrackers" = true → isArr (jget ortb2 "eventtrackers") = true) ∧
        (∀ a ∈ assets, specAssetShape a = true) := by
  constructor
  · intro h
    unfold isOpenRTBBidRequestValid at h
    split at h
    case h_2 => exact absurd h (by simp)
    case h_1 assets heq =>
      refine ⟨assets, heq, ?_⟩
      simp only at h
      split at h
      case isTrue => exact absurd h (by simp)
      case isFalse hne =>
        split at h
        case isTrue => exact absurd h (by simp)
        case isFalse hcnd =>
          rw [Bool.not_eq_true] at hcnd
          simp only [Bool.or_eq_false_iff] at hcnd
          obtain ⟨hsz, hany⟩ := hcnd
          simp at hsz hany
          have hok : ∀ a ∈ assets, intCoercionOk (jget a "id") = true := by
            intro a ha
            exact hany a ha
          have hnums : ∀ v ∈ assets.map (fun asset => jget asset "id"), ∃ q : ℚ, v = JVal.num q := by
            intro v hv
            obtain ⟨a, ha, rfl⟩ := List.mem_map.mp hv
            exact num_of_intCoercionOk _ (hok a ha)
          have hnd : (assets.map (fun a => jget a "id")).Nodup := by
            rw [← jsSetSize_eq_iff _ hnums]
            simp only [List.length_map]
            omega
          split at h
          case isTrue => exact absurd h (by simp)
          case isFalse hev =>
            rw [Bool.not_eq_true] at hev
            have hne' : assets ≠ [] := fun h0 => hne (by simp [h0])
            refine ⟨hne', hok, hnd, ?_, ?_⟩
            · intro hp
              by_contra hia
              rw [hp, Bool.true_and] at hev
              simp at hev
              exact hia hev
            · intro a ha
              rw [List.all_eq_true] at h
              rw [← assetValid_eq_spec a (asset_obj_of_id a (hok a ha))]
              exact h a ha
  · rintro ⟨assets, heq, hne, hok, hnd, hev, hshape⟩
    unfold isOpenRTBBidRequestValid
    rw [heq]
    simp only
    have hlen : ¬(assets.length = 0) := by
      intro h0; exact hne (List.length_eq_zero.mp h0)
    rw [if_neg hlen]
    have hnums : ∀ v ∈ assets.map (fun asset => jget asset "id"), ∃ q : ℚ, v = JVal.num q := by
      intro v hv
      obtain ⟨a, ha, rfl⟩ := List.mem_map.mp hv
      exact num_of_intCoercionOk _ (hok a ha)
    have hsz : jsSetSize (assets.map (fun asset => jget asset "id")) = assets.length := by
      have := (jsSetSize_eq_iff _ hnums).mpr hnd
      simpa using this
    have hcnd : (!(assets.length == jsSetSize (assets.map (fun asset => jget asset "id"))) ||
        (assets.map (fun asset => jget asset "id")).any (fun id => !(intCoercionOk id))) = false := by
      simp only [Bool.or_eq_false_iff]
      constructor
      · simp [hsz]
      · simp
        intro id hid
        exact hok id hid
    rw [if_neg (by rw [hcnd]; simp)]
    have hevb : (hasProp ortb2 "eventtrackers" && !(isArr (jget ortb2 "eventtrackers"))) = false := by
      by_cases hp : hasProp ortb2 "eventtrackers" = true
      · simp [hp, hev hp]
      · rw [Bool.not_eq_true] at hp; rw [hp, Bool.false_and]
    rw [if_neg (by rw [hevb]; simp)]
    rw [List.all_eq_true]
    intro a ha
    rw [assetValid_eq_spec a (asset_obj_of_id a (hok a ha))]
    exact hshape a ha

/-- C1: isOpenRTBBidRequestValid accepts an ortb2 request exactly when its
assets field is a non-empty array, every asset id strict-equals its integer
coercion, the ids are pairwise distinct, eventtrackers is an array whenever
the property is present, and every asset satisfies the per-type shape rule
of specAssetShape (an asset matching no known type being accepted). -/
theorem claim_C1 (ortb2 : JVal) :
    isOpenRTBBidRequestValid ortb2 = true ↔
      ∃ assets : List JVal,
        jget ortb2 "assets" = .arr assets ∧ assets ≠ [] ∧
        (∀ a ∈ assets, intCoercionOk (jget a "id") = true) ∧
        (assets.map (fun a => jget a "id")).Nodup ∧
        (hasProp ortb2 "eventtrackers" = true → isArr (jget ortb2 "eventtrackers") = true) ∧
        (∀ a ∈ assets, specAssetShape a = true) :=
  ortb2_valid_iff ortb2

/-- C10: ids are not required to be non-negative — an ortb2 request whose
assets form a non-empty array of per-type-valid assets carrying pairwise
distinct negative integer ids passes isOpenRTBBidRequestValid. -/
theorem claim_C10 (ortb2 : JVal) (assets : List JVal)
    (hA : jget ortb2 "assets" = .arr assets) (hne : assets ≠ [])
    (hev : hasProp ortb2 "eventtrackers" = true → isArr (jget ortb2 "eventtrackers") = true)
    (hids : ∀ a ∈ assets, ∃ n : ℤ, n < 0 ∧ jget a "id" = .num (n : ℚ))
    (hnodup : (assets.map (fun a => jget a "id")).Nodup)
    (hshape : ∀ a ∈ assets, isOpenRTBAssetValid a = true) :
    isOpenRTBBidRequestValid ortb2 = true := by
  rw [ortb2_valid_iff]
  have hok : ∀ a ∈ assets, intCoercionOk (jget a "id") = true := by
    intro a ha
    obtain ⟨n, _, hn⟩ := hids a ha
    rw [hn]
    simp [intCoercionOk, Rat.den_intCast]
  refine ⟨assets, hA, hne, hok, hnodup, hev, ?_⟩
  intro a ha
  rw [← assetValid_eq_spec a (asset_obj_of_id a (hok a ha))]
  exact hshape a ha

/-- Witness for C10 at a concrete two-asset request with ids -1 and -2. -/
theorem claim_C10_witness :
    isOpenRTBBidRequestValid
      (.obj [("assets", .arr
        [.obj [("id", .num (-1)), ("title", .obj [("len", .num 140)])],
         .obj [("id", .num (-2))]])]) = true := by
  refine claim_C10 _
    [JVal.obj [("id", .num (-1)), ("title", .obj [("len", .num 140)])],
     JVal.obj [("id", .num (-2))]]
    rfl (by simp) (fun hp => by exact absurd hp (by decide)) ?_ ?_ ?_
  · intro a ha
    rcases List.mem_cons.mp ha with h | h
    · exact ⟨-1, by norm_num, by rw [h]; rfl⟩
    · rcases List.mem_cons.mp h with h' | h'
      · exact ⟨-2, by norm_num, by rw [h']; rfl⟩
      · exact absurd h' (List.not_mem_nil a)
  · simp only [List.map_cons, List.map_nil]
    refine List.nodup_cons.mpr ⟨?_, List.nodup_singleton _⟩
    intro hmem
    have : jget (JVal.obj [("id", .num (-1)), ("title", .obj [("len", .num 140)])]) "id" =
        jget (JVal.obj [("id", .num (-2))]) "id" := by
      simpa using hmem
    rw [show jget (JVal.obj [("id", .num (-1)), ("title", .obj [("len", .num 140)])]) "id" =
        JVal.num (-1) from rfl,
      show jget (JVal.obj [("id", .num (-2))]) "id" = JVal.num (-2) from rfl] at this
    have : (-1 : ℚ) = -2 := JVal.num.inj this
    norm_num at this
  · intro a ha
    rcases List.mem_cons.mp ha with h | h
    · rw [h]; rfl
    · rcases List.mem_cons.mp h with h' | h'
      · rw [h']; rfl
      · exact absurd h' (List.not_mem_nil a)

/-- C2 (evaluation at the failing input): under the legacy shape the
required-asset containment check runs through the string includes
polyfill, so the required name itle — a substring of the comma-joined
returned key list clickUrl,title without being a returned key — passes and
the bid is accepted, where set containment over keys would reject it. -/
theorem claim_C2_eval :
    nativeBidIsValid
      (.obj [("native", .obj [("clickUrl", .str "https://x"), ("title", .str "T")])])
      (fun _ => .obj [("nativeParams", .obj [("itle", .obj [("required", .bool true)])])]) =
      true := by
  rfl

/-- C3 (evaluation at the failing input): under the OpenRTB shape the
required-id presence check runs through the string includes polyfill, so
required id 2 matches inside the joined response id list 22 and the bid is
accepted, where id-set membership would reject it. -/
theorem claim_C3_eval :
    nativeBidIsValid
      (.obj [("native", .obj [("ortb2", .obj
        [("link", .obj [("url", .str "https://x")]),
         ("assets", .arr [.obj [("id", .num 22)]])])])])
      (fun _ => .obj [("nativeParams", .obj [("ortb2", .obj
        [("assets", .arr [.obj
          [("id", .num 2), ("required", .num 1), ("title", .obj [("len", .num 10)])]])])])]) =
      true := by
  rfl

/-- C4 counterexample: the type ima is unsupported (it is not a key of
SUPPORTED_TYPES) yet the result is undefined rather than the unchanged
input, because the string includes polyfill accepts any substring of
image; a falsy ortb2 field never reaches validation, so a params carrying
ortb2 equal to 0 — which fails isOpenRTBBidRequestValid — comes back
unchanged rather than as undefined; and an unsupported type does not
guarantee the input back, since a truthy invalid ortb2 still yields
undefined. -/
theorem claim_C4_cex :
    processNativeAdUnitParams (.obj [("type", .str "ima")]) = .undefv ∧
    processNativeAdUnitParams (.obj [("ortb2", .num 0)]) = .obj [("ortb2", .num 0)] ∧
    processNativeAdUnitParams
      (.obj [("type", .str "unknown"), ("ortb2", .obj [("assets", .str "bad")])]) = .undefv :=
  ⟨rfl, rfl, rfl⟩

theorem truthy_of_prop_truthy (v : JVal) (k : String) (hidx : strIndex k = none)
    (h : truthy (jget v k) = true) : truthy v = true := by
  cases v with
  | obj fs => rfl
  | arr xs => rfl
  | undefv => rw [jget_not_obj _ _ (by rfl) hidx] at h; exact absurd h (by decide)
  | null => rw [jget_not_obj _ _ (by rfl) hidx] at h; exact absurd h (by decide)
  | bool b => rw [jget_not_obj _ _ (by rfl) hidx] at h; exact absurd h (by decide)
  | num q => rw [jget_not_obj _ _ (by rfl) hidx] at h; exact absurd h (by decide)
  | str s => rw [jget_not_obj _ _ (by rfl) hidx] at h; exact absurd h (by decide)

/-- C4 as amended: with type image the fixed preset replaces the params,
whatever sibling fields they carried; when the membership test rejects the
type and the params carry no truthy ortb2, the input comes back unchanged;
a truthy ortb2 failing validation on the post-substitution value yields
undefined; and a type accepted by the membership test that is not the key
image itself — the string polyfill accepts any truthy substring of image —
selects no preset and yields undefined. -/
theorem claim_C4 :
    (∀ fs : List (String × JVal),
      processNativeAdUnitParams (.obj (("type", .str "image") :: fs)) = IMAGE) ∧
    (∀ params : JVal, typeIsSupported (jget params "type") = false →
      truthy (jget params "ortb2") = false →
      processNativeAdUnitParams params = params) ∧
    (∀ params : JVal, truthy (jget (substitutePreset params) "ortb2") = true →
      isOpenRTBBidRequestValid (jget (substitutePreset params) "ortb2") = false →
      processNativeAdUnitParams params = .undefv) ∧
    (∀ t : String, typeIsSupported (.str t) = true → t ≠ "image" →
      processNativeAdUnitParams (.obj [("type", .str t)]) = .undefv) := by
  refine ⟨fun fs => rfl, ?_, ?_, ?_⟩
  · intro params h1 h2
    simp [processNativeAdUnitParams, substitutePreset, h1, h2]
  · intro params h1 h2
    have ht : truthy (substitutePreset params) = true :=
      truthy_of_prop_truthy _ _ strIndex_ortb2 h1
    simp [processNativeAdUnitParams, ht, h1, h2]
  · intro t h1 h2
    have ht : truthy (JVal.str t) = true := by
      have h1' := h1
      rw [typeIsSupported, Bool.and_eq_true] at h1'
      exact h1'.1
    have hsub : substitutePreset (.obj [("type", .str t)]) = .undefv := by
      simp only [substitutePreset]
      rw [show jget (JVal.obj [("type", JVal.str t)]) "type" = JVal.str t from rfl, ht, h1]
      simp only [Bool.and_self, Bool.and_true, Bool.true_and, if_true]
      rw [show jToString (JVal.str t) = t from rfl]
      show (alookup [("image", IMAGE)] t).getD .undefv = .undefv
      rw [show alookup [("image", IMAGE)] t =
        if ("image" : String) = t then some IMAGE else none from rfl]
      rw [if_neg (fun he => h2 he.symm)]
      rfl
    simp [processNativeAdUnitParams, hsub]

/-- Witness for C4, applying its substring clause at the concrete type
ima. -/
theorem claim_C4_witness :
    typeIsSupported (JVal.str "ima") = true ∧
    processNativeAdUnitParams (.obj [("type", .str "ima")]) = .undefv :=
  ⟨by rfl, claim_C4.2.2.2 "ima" (by rfl) (by decide)⟩

theorem alookup_append {α : Type} (l1 l2 : List (String × α)) (k : String) :
    alookup (l1 ++ l2) k =
      match alookup l1 k with
      | some v => some v
      | none => alookup l2 k := by
  induction l1 with
  | nil => rfl
  | cons p ps ih =>
    by_cases h : p.1 = k
    · simp [alookup, h]
    · simp [alookup, h, ih]

theorem alookup_override {α : Type} (fa fb : List (String × α)) (k : String) :
    alookup (fa.map (fun p =>
      match alookup fb p.1 with
      | some v => (p.1, v)
      | none => p)) k =
      (alookup fa k).map (fun v => (alookup fb k).getD v) := by
  induction fa with
  | nil => rfl
  | cons p ps ih =>
    by_cases h : p.1 = k
    · subst h
      cases hb : alookup fb p.1 with
      | some w => simp [alookup, hb]
      | none => simp [alookup, hb]
    · cases hb : alookup fb p.1 with
      | some w =>
        simp only [List.map_cons, hb, alookup, if_neg h]
        exact ih
      | none =>
        simp only [List.map_cons, hb, alookup, if_neg h]
        exact ih

theorem alookup_filter_none {α : Type} (fa fb : List (String × α)) (k : String) :
    alookup (fb.filter (fun q => (alookup fa q.1).isNone)) k =
      if (alookup fa k).isNone then alookup fb k else none := by
  induction fb with
  | nil => simp [alookup]
  | cons q qs ih =>
    by_cases h : q.1 = k
    · subst h
      cases ha : alookup fa q.1 with
      | some w => simp [alookup, ha, ih]
      | none => simp [alookup, ha, List.filter_cons]
    · cases hp : (alookup fa q.1).isNone with
      | true => simp [List.filter_cons, hp, alookup, h, ih]
      | false => simp [List.filter_cons, hp, alookup, h, ih]

theorem alookup_amerge {α : Type} (fa fb : List (String × α)) (k : String) :
    alookup (amerge fa fb) k =
      match alookup fb k with
      | some w => some w
      | none => alookup fa k := by
  unfold amerge
  rw [alookup_append, alookup_override, alookup_filter_none]
  cases ha : alookup fa k with
  | some v =>
    cases hb : alookup fb k with
    | some w => simp
    | none => simp
  | none =>
    cases hb : alookup fb k with
    | some w => simp
    | none => simp

theorem alookup_ext_entries (names : List String) (k : String) :
    alookup (names.map (fun n => (n, "hb_native_" ++ n))) k =
      if k ∈ names then some ("hb_native_" ++ k) else none := by
  induction names with
  | nil => simp [alookup]
  | cons n ns ih =>
    by_cases h : n = k
    · subst h
      simp [alookup, ih]
    · simp only [List.map_cons, alookup, h, if_false, ih, List.mem_cons]
      have : (k ∈ ns ∨ k = n) ↔ k ∈ ns := by
        constructor
        · rintro (hh | hh)
          · exact hh
          · exact absurd hh.symm h
        · exact Or.inl
      by_cases hm : k ∈ ns
      · simp [hm, Ne.symm h]
      · simp [hm, Ne.symm h]

/-- C6: the targeting key map of an ad slot answers every extension name
with hb_native_ plus the name, and every other name with its fixed-table
entry — the fixed table is spread first and extension entries on top, so a
collision resolves to the extension-derived key. -/
theorem claim_C6 (adUnit : JVal) (name : String) :
    alookup (getNativeKeys adUnit) name =
      if name ∈ extNamesOf adUnit then some ("hb_native_" ++ name)
      else alookup NATIVE_KEYS name := by
  rw [getNativeKeys, alookup_amerge, alookup_ext_entries]
  by_cases h : name ∈ extNamesOf adUnit
  · simp [h]
  · simp [h]

theorem alookup_eq_none_of_not_mem {α : Type} (fs : List (String × α)) (k : String)
    (h : k ∉ fs.map Prod.fst) : alookup fs k = none := by
  induction fs with
  | nil => rfl
  | cons p ps ih =>
    simp only [List.map_cons, List.mem_cons] at h
    push_neg at h
    simp only [alookup]
    rw [if_neg (fun he => h.1 he.symm)]
    exact ih h.2

theorem alookup_objSet_self (fs : List (String × JVal)) (k : String) (v : JVal) :
    alookup (objSet fs k v) k = some v := by
  unfold objSet
  by_cases hc : (fs.map Prod.fst).contains k
  · rw [if_pos hc]
    have hmem : k ∈ fs.map Prod.fst := by simpa using hc
    clear hc
    induction fs with
    | nil => simp at hmem
    | cons p ps ih =>
      by_cases h : p.1 = k
      · simp [alookup, h]
      · simp only [List.map_cons, List.mem_cons] at hmem
        rcases hmem with h' | h'
        · exact absurd h'.symm h
        · simp only [List.map_cons, if_neg h, alookup]
          exact ih h'
  · rw [if_neg hc]
    have hnm : k ∉ fs.map Prod.fst := by simpa using hc
    rw [alookup_append, alookup_eq_none_of_not_mem fs k hnm]
    simp [alookup]

theorem alookup_objSet_ne (fs : List (String × JVal)) (k' : String) (v : JVal) (k : String)
    (h : k' ≠ k) : alookup (objSet fs k' v) k = alookup fs k := by
  unfold objSet
  by_cases hc : (fs.map Prod.fst).contains k'
  · rw [if_pos hc]
    clear hc
    induction fs with
    | nil => rfl
    | cons p ps ih =>
      by_cases hp : p.1 = k'
      · simp only [List.map_cons, if_pos hp, alookup]
        rw [if_neg h, if_neg (by rw [hp]; exact h)]
        exact ih
      · simp only [List.map_cons, if_neg hp, alookup]
        by_cases hk : p.1 = k
        · simp [hk]
        · rw [if_neg hk, if_neg hk]
          exact ih
  · rw [if_neg hc]
    rw [alookup_append]
    cases ha : alookup fs k with
    | some w => rfl
    | none =>
      simp only [alookup]
      rw [if_neg h]

theorem objSet_contains (fs : List (String × JVal)) (k : String) (v : JVal) :
    ((objSet fs k v).map Prod.fst).contains k = true := by
  unfold objSet
  by_cases hc : (fs.map Prod.fst).contains k
  · rw [if_pos hc]
    have hmem : k ∈ fs.map Prod.fst := by simpa using hc
    obtain ⟨p, hp, hpk⟩ := List.mem_map.mp hmem
    have : (k : String) ∈ ((fs.map fun p => if p.1 = k then (k, v) else p).map Prod.fst) := by
      rw [List.map_map]
      refine List.mem_map.mpr ⟨p, hp, ?_⟩
      simp [Function.comp, hpk]
    simpa using this
  · rw [if_neg hc]
    simp

theorem objSet_objSet_same (fs : List (String × JVal)) (k : String) (a b : JVal) :
    objSet (objSet fs k a) k b = objSet fs k b := by
  by_cases hc : (fs.map Prod.fst).contains k
  · have hc2 := objSet_contains fs k a
    unfold objSet at hc2 ⊢
    rw [if_pos hc] at hc2 ⊢
    rw [if_pos hc2, if_pos hc, List.map_map]
    refine List.map_congr_left ?_
    intro p _
    by_cases hp : p.1 = k
    · simp [Function.comp, hp]
    · simp [Function.comp, hp]
  · have hkeys : ∀ p ∈ fs, p.1 ≠ k := by
      intro p hp he
      have hmem : k ∈ fs.map Prod.fst := List.mem_map.mpr ⟨p, hp, he⟩
      exact hc (by simpa using hmem)
    have hc2 := objSet_contains fs k a
    unfold objSet at hc2 ⊢
    rw [if_neg hc] at hc2 ⊢
    rw [if_pos hc2, if_neg hc]
    rw [List.map_append]
    have h1 : (fs.map fun p => if p.1 = k then (k, b) else p) = fs := by
      have : ∀ p ∈ fs, (if p.1 = k then (k, b) else p) = id p := by
        intro p hp
        rw [if_neg (hkeys p hp)]
        rfl
      rw [List.map_congr_left this, List.map_id]
    rw [h1]
    simp

theorem dedupFirst_nodup (l : List String) : (dedupFirst l).Nodup := by
  induction l with
  | nil => exact List.nodup_nil
  | cons k ks ih =>
    simp only [dedupFirst]
    refine List.nodup_cons.mpr ⟨?_, ih.filter _⟩
    intro hmem
    have h2 := (List.mem_filter.mp hmem).2
    simp at h2

theorem foldl_emitStep_skip (u b : JVal) (l : List String) (acc : List (String × JVal))
    (key : String)
    (h : ∀ a ∈ l, ∀ p : String × JVal, assetEmission u b a = some p → p.1 ≠ key) :
    alookup (l.foldl (emitStep u b) acc) key = alookup acc key := by
  induction l generalizing acc with
  | nil => rfl
  | cons a l' ih =>
    rw [List.foldl_cons]
    rw [ih _ (fun x hx => h x (List.mem_cons.mpr (Or.inr hx)))]
    unfold emitStep
    cases hf : assetEmission u b a with
    | none => rfl
    | some p => exact alookup_objSet_ne _ _ _ _ (h a (List.mem_cons_self a l') p hf)

theorem foldl_emitStep_hit (u b : JVal) (l : List String) (acc : List (String × JVal))
    (key : String) (v : JVal) (asset : String)
    (hnd : l.Nodup) (hmem : asset ∈ l)
    (hothers : ∀ a ∈ l, a ≠ asset → ∀ p : String × JVal,
      assetEmission u b a = some p → p.1 ≠ key)
    (hf : assetEmission u b asset = some (key, v)) :
    alookup (l.foldl (emitStep u b) acc) key = some v := by
  induction l generalizing acc with
  | nil => cases hmem
  | cons a l' ih =>
    rw [List.foldl_cons]
    rcases List.mem_cons.mp hmem with heq | hmem'
    · subst heq
      have hnotin : asset ∉ l' := (List.nodup_cons.mp hnd).1
      rw [foldl_emitStep_skip u b l' _ key ?hh]
      · unfold emitStep
        rw [hf]
        exact alookup_objSet_self _ _ _
      case hh =>
        intro x hx p hp
        exact hothers x (List.mem_cons.mpr (Or.inr hx))
          (fun he => hnotin (he ▸ hx)) p hp
    · exact ih _ (List.nodup_cons.mp hnd).2 hmem'
        (fun x hx => hothers x (List.mem_cons.mpr (Or.inr hx)))

theorem assetEmission_key (u b : JVal) (a : String) (p : String × JVal)
    (h : assetEmission u b a = some p) : alookup (getNativeKeys u) a = some p.1 := by
  unfold assetEmission at h
  cases hk : alookup (getNativeKeys u) a with
  | none => rw [hk] at h; cases h
  | some key' =>
    rw [hk] at h
    simp only at h
    split at h
    · cases h
    · split at h
      next b' hb' =>
        split at h
        · cases h; rfl
        · cases h
      next =>
        split at h
        · cases h; rfl
        · cases h

theorem claim_C5_aux (adU bid1 : JVal) (l : List String) (asset key : String) (v : JVal)
    (hnd : l.Nodup) (hmem : asset ∈ l)
    (hothers : ∀ a ∈ l, a ≠ asset → ∀ p : String × JVal,
      assetEmission adU bid1 a = some p → p.1 ≠ key)
    (cnd : Bool)
    (hemit : assetEmission adU bid1 asset = (if cnd then some (key, v) else none)) :
    alookup (l.foldl (emitStep adU bid1) []) key = (if cnd then some v else none) := by
  cases cnd with
  | true =>
    simp only [if_true] at hemit ⊢
    exact foldl_emitStep_hit adU bid1 l [] key v asset hnd hmem hothers hemit
  | false =>
    simp only [Bool.false_eq_true, if_false] at hemit ⊢
    have hall : ∀ a ∈ l, ∀ p : String × JVal, assetEmission adU bid1 a = some p → p.1 ≠ key := by
      intro a ha p hp
      by_cases he : a = asset
      · subst he
        rw [hemit] at hp
        cases hp
      · exact hothers a ha he p hp
    rw [foldl_emitStep_skip adU bid1 l [] key hall]
    rfl

/-- C5: in the targeting map, an asset that has a key-map entry and a
truthy resolved value emits, under its targeting key, the placeholder
string key colon adId when the two-stage sendId flag resolves truthy and
the real resolved value otherwise; the pair lands in the map exactly when
the two-stage boolean sendTargetingKeys flag is true, defaulting to the
global flag — true unless nativeParams.sendTargetingKeys is strictly false
— when neither lookup is boolean (stated for a key no other iterated asset
maps to, so the entry is not overwritten). -/
theorem claim_C5 (bid : JVal) (index : JVal → JVal) (asset key : String) (v : JVal)
    (adU bid1 : JVal)
    (hA : adU = index bid) (hB : bid1 = mutateStep bid adU)
    (hmem : asset ∈ iterKeysOfFields (flatFields bid1))
    (hcoll : ∀ a ∈ iterKeysOfFields (flatFields bid1), a ≠ asset →
      alookup (getNativeKeys adU) a ≠ some key)
    (hk : alookup (getNativeKeys adU) asset = some key) (hknz : key ≠ "")
    (hAd : asset ≠ "adTemplate")
    (hv : truthy (resolvedAssetValue bid1 asset) = true)
    (hval : v = (if truthy (assetFlag adU asset "sendId") then
        JVal.str (key ++ ":" ++ jToString (jget bid1 "adId"))
      else resolvedAssetValue bid1 asset)) :
    alookup (getNativeTargeting bid index) key =
      (match assetFlag adU asset "sendTargetingKeys" with
       | .bool b => if b then some v else none
       | _ => if globalSendTK adU then some v else none) := by
  have hGT : getNativeTargeting bid index =
      (iterKeysOfFields (flatFields bid1)).foldl (emitStep adU bid1) [] := by
    rw [hB, hA]
    rfl
  rw [hGT]
  have hnd : (iterKeysOfFields (flatFields bid1)).Nodup := dedupFirst_nodup _
  have hothers : ∀ a ∈ iterKeysOfFields (flatFields bid1), a ≠ asset →
      ∀ p : String × JVal, assetEmission adU bid1 a = some p → p.1 ≠ key := by
    intro a ha hne p hp heq
    exact hcoll a ha hne (heq ▸ assetEmission_key adU bid1 a p hp)
  have hemit : assetEmission adU bid1 asset =
      (match assetFlag adU asset "sendTargetingKeys" with
       | .bool b => if b then some (key, v) else none
       | _ => if globalSendTK adU then some (key, v) else none) := by
    unfold assetEmission
    simp only [hk]
    rw [if_neg ?hng]
    case hng =>
      rintro (h | h | h)
      · exact hAd h
      · exact hknz h
      · simp [hv] at h
    rw [← hval]
  cases hflag : assetFlag adU asset "sendTargetingKeys" with
  | bool b =>
    exact claim_C5_aux adU bid1 _ asset key v hnd hmem hothers b
      (by rw [hflag] at hemit; exact hemit)
  | undefv =>
    exact claim_C5_aux adU bid1 _ asset key v hnd hmem hothers (globalSendTK adU)
      (by rw [hflag] at hemit; exact hemit)
  | null =>
    exact claim_C5_aux adU bid1 _ asset key v hnd hmem hothers (globalSendTK adU)
      (by rw [hflag] at hemit; exact hemit)
  | num q =>
    exact claim_C5_aux adU bid1 _ asset key v hnd hmem hothers (globalSendTK adU)
      (by rw [hflag] at hemit; exact hemit)
  | str s =>
    exact claim_C5_aux adU bid1 _ asset key v hnd hmem hothers (globalSendTK adU)
      (by rw [hflag] at hemit; exact hemit)
  | arr xs =>
    exact claim_C5_aux adU bid1 _ asset key v hnd hmem hothers (globalSendTK adU)
      (by rw [hflag] at hemit; exact hemit)
  | obj fs =>
    exact claim_C5_aux adU bid1 _ asset key v hnd hmem hothers (globalSendTK adU)
      (by rw [hflag] at hemit; exact hemit)

/-- Witness for C5: with sendId true on the title asset and bid id b1, the
emitted targeting value is the placeholder hb_native_title:b1. -/
theorem claim_C5_witness :
    alookup (getNativeTargeting
      (.obj [("adId", .str "b1"),
             ("native", .obj [("clickUrl", .str "u"), ("title", .str "T")])])
      (fun _ => .obj [("nativeParams", .obj [("title", .obj [("sendId", .bool true)])])]))
      "hb_native_title" = some (.str "hb_native_title:b1") := by
  have h := claim_C5
    (.obj [("adId", .str "b1"),
           ("native", .obj [("clickUrl", .str "u"), ("title", .str "T")])])
    (fun _ => .obj [("nativeParams", .obj [("title", .obj [("sendId", .bool true)])])])
    "title" "hb_native_title" (.str "hb_native_title:b1")
    (.obj [("nativeParams", .obj [("title", .obj [("sendId", .bool true)])])])
    (.obj [("adId", .str "b1"),
           ("native", .obj [("clickUrl", .str "u"), ("title", .str "T")])])
    rfl rfl (by decide) (by decide) (by decide) (by decide) (by decide) (by rfl) (by rfl)
  exact h

/-- C7 counterexample: with both rendererUrl and adTemplate declared on the
ad slot, the mutation prologue is an if slash else-if, so only rendererUrl
is copied onto bid.native and adTemplate is not copied at all — the claim
that each declared one of the two is copied fails. -/
theorem claim_C7_cex :
    jget (jget (getNativeTargetingFull
      (.obj [("native", .obj [("clickUrl", .str "u")])])
      (fun _ => .obj [("nativeParams", .obj
        [("rendererUrl", .str "R"), ("adTemplate", .str "T")])])).1 "native")
      "adTemplate" = .undefv ∧
    jget (jget (getNativeTargetingFull
      (.obj [("native", .obj [("clickUrl", .str "u")])])
      (fun _ => .obj [("nativeParams", .obj
        [("rendererUrl", .str "R"), ("adTemplate", .str "T")])])).1 "native")
      "rendererUrl" = .str "R" :=
  ⟨rfl, rfl⟩

theorem setNativeField_obj (bfs nfs : List (String × JVal)) (k : String) (v : JVal)
    (hn : jget (JVal.obj bfs) "native" = .obj nfs) :
    setNativeField (JVal.obj bfs) k v =
      .obj (objSet bfs "native" (.obj (objSet nfs k v))) := by
  unfold setNativeField
  rw [hn]

theorem setNativeField_not_obj (bid : JVal) (k : String) (v : JVal)
    (hn : isPlainObj (jget bid "native") = false) : setNativeField bid k v = bid := by
  cases bid with
  | obj bfs =>
    cases hn2 : jget (JVal.obj bfs) "native" with
    | obj nfs => rw [hn2] at hn; simp [isPlainObj] at hn
    | undefv => unfold setNativeField; rw [hn2]
    | null => unfold setNativeField; rw [hn2]
    | bool b => unfold setNativeField; rw [hn2]
    | num q => unfold setNativeField; rw [hn2]
    | str s => unfold setNativeField; rw [hn2]
    | arr xs => unfold setNativeField; rw [hn2]
  | undefv => rfl
  | null => rfl
  | bool b => rfl
  | num q => rfl
  | str s => rfl
  | arr xs => rfl

theorem jget_setNativeField_native (bfs nfs : List (String × JVal)) (k : String) (v : JVal)
    (hn : jget (JVal.obj bfs) "native" = .obj nfs) :
    jget (setNativeField (JVal.obj bfs) k v) "native" = .obj (objSet nfs k v) := by
  rw [setNativeField_obj bfs nfs k v hn]
  show (alookup (objSet bfs "native" (.obj (objSet nfs k v))) "native").getD .undefv = _
  rw [alookup_objSet_self]
  rfl

/-- C7 as amended: the mutation prologue copies rendererUrl when declared,
otherwise adTemplate when declared — at most one of the two, rendererUrl
taking precedence — value-resolved onto bid.native, and leaves the bid
untouched when neither is declared; the write reaches no other field of
the bid and no other field of its native object. -/
theorem claim_C7 (bid : JVal) (index : JVal → JVal) :
    ((truthy (deepAccess (index bid) "nativeParams.rendererUrl") = true →
      (getNativeTargetingFull bid index).1 =
        setNativeField bid "rendererUrl"
          (getAssetValue (jget (jget (index bid) "nativeParams") "rendererUrl"))) ∧
     (truthy (deepAccess (index bid) "nativeParams.rendererUrl") = false →
      truthy (deepAccess (index bid) "nativeParams.adTemplate") = true →
      (getNativeTargetingFull bid index).1 =
        setNativeField bid "adTemplate"
          (getAssetValue (jget (jget (index bid) "nativeParams") "adTemplate"))) ∧
     (truthy (deepAccess (index bid) "nativeParams.rendererUrl") = false →
      truthy (deepAccess (index bid) "nativeParams.adTemplate") = false →
      (getNativeTargetingFull bid index).1 = bid)) ∧
    (∀ (k : String) (v : JVal) (k' : String), k' ≠ "native" →
      jget (setNativeField bid k v) k' = jget bid k') ∧
    (∀ (k : String) (v : JVal) (k' : String), k' ≠ k →
      jget (jget (setNativeField bid k v) "native") k' = jget (jget bid "native") k') := by
  refine ⟨⟨?_, ?_, ?_⟩, ?_, ?_⟩
  · intro h1
    show mutateStep bid (index bid) = _
    simp only [mutateStep, if_pos h1]
  · intro h1 h2
    show mutateStep bid (index bid) = _
    simp only [mutateStep, h1, Bool.false_eq_true, if_false, if_pos h2]
  · intro h1 h2
    show mutateStep bid (index bid) = _
    simp only [mutateStep, h1, h2, Bool.false_eq_true, if_false]
  · intro k v k' hk'
    by_cases hobj : isPlainObj (jget bid "native") = true
    · cases bid with
      | obj bfs =>
        cases hn : jget (JVal.obj bfs) "native" with
        | obj nfs =>
          rw [setNativeField_obj bfs nfs k v hn]
          show (alookup (objSet bfs "native" (.obj (objSet nfs k v))) k').getD .undefv = _
          rw [alookup_objSet_ne _ _ _ _ (fun he => hk' he.symm)]
          rfl
        | undefv => rw [hn] at hobj; simp [isPlainObj] at hobj
        | null => rw [hn] at hobj; simp [isPlainObj] at hobj
        | bool b => rw [hn] at hobj; simp [isPlainObj] at hobj
        | num q => rw [hn] at hobj; simp [isPlainObj] at hobj
        | str s => rw [hn] at hobj; simp [isPlainObj] at hobj
        | arr xs => rw [hn] at hobj; simp [isPlainObj] at hobj
      | undefv => rfl
      | null => rfl
      | bool b => rfl
      | num q => rfl
      | str s => rfl
      | arr xs => rfl
    · rw [setNativeField_not_obj bid k v (by simpa using hobj)]
  · intro k v k' hk'
    by_cases hobj : isPlainObj (jget bid "native") = true
    · cases bid with
      | obj bfs =>
        cases hn : jget (JVal.obj bfs) "native" with
        | obj nfs =>
          rw [jget_setNativeField_native bfs nfs k v hn]
          show (alookup (objSet nfs k v) k').getD .undefv = (alookup nfs k').getD .undefv
          rw [alookup_objSet_ne _ _ _ _ (fun he => hk' he.symm)]
        | undefv => rw [hn] at hobj; simp [isPlainObj] at hobj
        | null => rw [hn] at hobj; simp [isPlainObj] at hobj
        | bool b => rw [hn] at hobj; simp [isPlainObj] at hobj
        | num q => rw [hn] at hobj; simp [isPlainObj] at hobj
        | str s => rw [hn] at hobj; simp [isPlainObj] at hobj
        | arr xs => rw [hn] at hobj; simp [isPlainObj] at hobj
      | undefv => rfl
      | null => rfl
      | bool b => rfl
      | num q => rfl
      | str s => rfl
      | arr xs => rfl
    · rw [setNativeField_not_obj bid k v (by simpa using hobj)]

/-- Witness for C7, applying its rendererUrl clause at a concrete pair. -/
theorem claim_C7_witness :
    truthy (deepAccess ((fun _ : JVal => JVal.obj [("nativeParams", .obj
      [("rendererUrl", .str "R")])]) (JVal.obj [("native", .obj [])]))
      "nativeParams.rendererUrl") = true ∧
    (getNativeTargetingFull (.obj [("native", .obj [])])
      (fun _ => .obj [("nativeParams", .obj [("rendererUrl", .str "R")])])).1 =
      setNativeField (.obj [("native", .obj [])]) "rendererUrl"
        (getAssetValue (jget (jget ((fun _ : JVal => JVal.obj [("nativeParams", .obj
          [("rendererUrl", .str "R")])]) (JVal.obj [("native", .obj [])]))
          "nativeParams") "rendererUrl")) :=
  ⟨by decide,
   (claim_C7 (.obj [("native", .obj [])])
     (fun _ => .obj [("nativeParams", .obj [("rendererUrl", .str "R")])])).1.1 (by decide)⟩

theorem setNativeField_idem (bid : JVal) (k : String) (v : JVal) :
    setNativeField (setNativeField bid k v) k v = setNativeField bid k v := by
  by_cases hobj : isPlainObj (jget bid "native") = true
  · cases bid with
    | obj bfs =>
      cases hn : jget (JVal.obj bfs) "native" with
      | obj nfs =>
        rw [setNativeField_obj bfs nfs k v hn]
        have hn2 : jget (JVal.obj (objSet bfs "native" (.obj (objSet nfs k v)))) "native" =
            .obj (objSet nfs k v) := by
          show (alookup (objSet bfs "native" (.obj (objSet nfs k v))) "native").getD .undefv = _
          rw [alookup_objSet_self]
          rfl
        rw [setNativeField_obj _ _ k v hn2]
        rw [objSet_objSet_same, objSet_objSet_same]
      | undefv => rw [hn] at hobj; simp [isPlainObj] at hobj
      | null => rw [hn] at hobj; simp [isPlainObj] at hobj
      | bool b => rw [hn] at hobj; simp [isPlainObj] at hobj
      | num q => rw [hn] at hobj; simp [isPlainObj] at hobj
      | str s => rw [hn] at hobj; simp [isPlainObj] at hobj
      | arr xs => rw [hn] at hobj; simp [isPlainObj] at hobj
    | undefv => rfl
    | null => rfl
    | bool b => rfl
    | num q => rfl
    | str s => rfl
    | arr xs => rfl
  · have h1 := setNativeField_not_obj bid k v (by simpa using hobj)
    rw [h1, h1]

theorem mutateStep_idem (bid u : JVal) :
    mutateStep (mutateStep bid u) u = mutateStep bid u := by
  by_cases h1 : truthy (deepAccess u "nativeParams.rendererUrl") = true
  · simp only [mutateStep, if_pos h1]
    exact setNativeField_idem bid "rendererUrl" _
  · rw [Bool.not_eq_true] at h1
    by_cases h2 : truthy (deepAccess u "nativeParams.adTemplate") = true
    · simp only [mutateStep, h1, Bool.false_eq_true, if_false, if_pos h2]
      exact setNativeField_idem bid "adTemplate" _
    · rw [Bool.not_eq_true] at h2
      simp only [mutateStep, h1, h2, Bool.false_eq_true, if_false]

/-- C9: building the targeting map twice in succession for the same
bid/ad-slot pair — the bid carrying only the first call's own write-back,
and the index lookup unaffected by that write — yields identical maps. -/
theorem claim_C9 (bid : JVal) (index : JVal → JVal)
    (hidx : index (getNativeTargetingFull bid index).1 = index bid) :
    getNativeTargeting (getNativeTargetingFull bid index).1 index =
      getNativeTargeting bid index := by
  have hidx' : index (mutateStep bid (index bid)) = index bid := hidx
  show (getNativeTargetingFull (mutateStep bid (index bid)) index).2 =
    (getNativeTargetingFull bid index).2
  unfold getNativeTargetingFull
  simp only [hidx', mutateStep_idem]

/-- Witness for C9 at a concrete pair under a constant index. -/
theorem claim_C9_witness :
    getNativeTargeting
      (getNativeTargetingFull
        (.obj [("adId", .str "b1"), ("native", .obj [("clickUrl", .str "u")])])
        (fun _ => .obj [("nativeParams", .obj [("rendererUrl", .str "R")])])).1
      (fun _ => .obj [("nativeParams", .obj [("rendererUrl", .str "R")])]) =
      getNativeTargeting
        (.obj [("adId", .str "b1"), ("native", .obj [("clickUrl", .str "u")])])
        (fun _ => .obj [("nativeParams", .obj [("rendererUrl", .str "R")])]) :=
  claim_C9
    (.obj [("adId", .str "b1"), ("native", .obj [("clickUrl", .str "u")])])
    (fun _ => .obj [("nativeParams", .obj [("rendererUrl", .str "R")])]) rfl

/-- C8 counterexample: isOpenRTBBidRequestValid does not return normally on
every input — on an assets array holding null, the id map reads a property
of null and throws, modelled by the exception-aware validator producing an
error rather than a boolean. -/
theorem claim_C8_cex :
    isOpenRTBBidRequestValidE (.obj [("assets", .arr [.null])]) = .error () := rfl

theorem jgetE_ok (v : JVal) (k : String) (h1 : v ≠ .null) (h2 : v ≠ .undefv) :
    jgetE v k = .ok (jget v k) := by
  cases v with
  | null => exact absurd rfl h1
  | undefv => exact absurd rfl h2
  | bool b => rfl
  | num q => rfl
  | str s => rfl
  | arr xs => rfl
  | obj fs => rfl

theorem mapM_jgetE_ok (xs : List JVal) (h : ∀ a ∈ xs, a ≠ .null ∧ a ≠ .undefv) :
    xs.mapM (fun a => jgetE a "id") = .ok (xs.map (fun a => jget a "id")) := by
  induction xs with
  | nil => rfl
  | cons a l ih =>
    rw [List.mapM_cons]
    rw [jgetE_ok a "id" (h a (List.mem_cons_self a l)).1 (h a (List.mem_cons_self a l)).2]
    rw [ih (fun x hx => h x (List.mem_cons.mpr (Or.inr hx)))]
    rfl

/-- C8 as amended: the asset-processing core is not exception-free — a
property read on a null or undefined base throws, as the validator does on
a null entry of the assets array, and as getAssetValue does on a null
value, typeof null being the string object — but away from such reads it
returns normally: getAssetValue yields a value on every non-null input,
and on an ortb2 that is itself neither null nor undefined and whose assets
array holds no null or undefined entry, the validator returns normally
with the total-model verdict, malformed shapes degrading to false. -/
theorem claim_C8 :
    (∀ v : JVal, v ≠ .null → ∃ r : JVal, getAssetValueE v = .ok r) ∧
    (getAssetValueE .null = .error ()) ∧
    (∀ ortb2 : JVal, ortb2 ≠ .null → ortb2 ≠ .undefv →
      (∀ a ∈ jarr (jget ortb2 "assets"), a ≠ .null ∧ a ≠ .undefv) →
      isOpenRTBBidRequestValidE ortb2 = .ok (isOpenRTBBidRequestValid ortb2)) := by
  refine ⟨?_, rfl, ?_⟩
  · intro v hv
    cases v with
    | null => exact absurd rfl hv
    | undefv => exact ⟨.undefv, rfl⟩
    | bool b => exact ⟨.bool b, rfl⟩
    | num q => exact ⟨.num q, rfl⟩
    | str s => exact ⟨.str s, rfl⟩
    | arr xs => exact ⟨.arr xs, rfl⟩
    | obj fs => exact ⟨_, rfl⟩
  · intro ortb2 h1 h2 h3
    unfold isOpenRTBBidRequestValidE isOpenRTBBidRequestValid
    rw [jgetE_ok ortb2 "assets" h1 h2]
    cases harr : jget ortb2 "assets" with
    | arr xs =>
      rw [harr] at h3
      have hmapM : xs.mapM (fun a => jgetE a "id") = .ok (xs.map (fun a => jget a "id")) :=
        mapM_jgetE_ok xs (by
          intro a ha
          exact h3 a (by rw [show jarr (JVal.arr xs) = xs from rfl]; exact ha))
      simp only
      by_cases hlen : xs.length = 0
      · simp [hlen]
      · rw [if_neg hlen, if_neg hlen, hmapM]
        by_cases hc1 : (!(xs.length == jsSetSize (xs.map (fun asset => jget asset "id"))) ||
            (xs.map (fun asset => jget asset "id")).any (fun id => !(intCoercionOk id))) = true
        · simp only [hc1, if_true]
        · rw [Bool.not_eq_true] at hc1
          simp only [hc1, Bool.false_eq_true, if_false]
          by_cases hc2 : (hasProp ortb2 "eventtrackers" &&
              !(isArr (jget ortb2 "eventtrackers"))) = true
          · simp only [hc2, if_true]
          · rw [Bool.not_eq_true] at hc2
            simp only [hc2, Bool.false_eq_true, if_false]
    | undefv => rfl
    | null => rfl
    | bool b => rfl
    | num q => rfl
    | str s => rfl
    | obj fs => rfl

/-- Witness for C8, applying its validator clause to a concrete well-formed
request. -/
theorem claim_C8_witness :
    isOpenRTBBidRequestValidE
      (.obj [("assets", .arr [.obj [("id", .num 1), ("title", .obj [("len", .num 140)])]])]) =
      .ok (isOpenRTBBidRequestValid
        (.obj [("assets", .arr [.obj [("id", .num 1), ("title", .obj [("len", .num 140)])]])])) :=
  claim_C8.2.2 _ (fun h => JVal.noConfusion h) (fun h => JVal.noConfusion h)
    (by
      intro a ha
      rw [show jarr (jget (JVal.obj [("assets", JVal.arr
        [JVal.obj [("id", JVal.num 1), ("title", JVal.obj [("len", JVal.num 140)])]])])
        "assets") =
        [JVal.obj [("id", JVal.num 1), ("title", JVal.obj [("len", JVal.num 140)])]]
        from rfl] at ha
      rcases List.mem_cons.mp ha with h | h
      · subst h
        exact ⟨fun hh => JVal.noConfusion hh, fun hh => JVal.noConfusion hh⟩
      · exact absurd h (List.not_mem_nil a))
